import Mathlib

/-!
Shallow embedding of the airquality-dashboard ETL pipeline
(src/backend/etl/{extract,transform,load,etl_pipeline}.py) and proofs about
its specification.

Conventions of the embedding:
* Python `None` / missing values are `Option.none`.
* Python functions that can raise an exception that escapes to the caller
  return `Except`.
* The PostgreSQL destination table is modelled as a list of rows; the
  uniqueness index `idx_unique_site_time` on (site_name, start_time, end_time)
  is modelled through `keyConflicts`.  A batch containing a `pd.NaT`
  timestamp never reaches the row-level insert: psycopg2 cannot adapt
  `NaTType`, so the INSERT raises first (see `load_run`).
* Wall-clock time (Europe/Paris) is modelled by its calendar fields; the
  absolute hour count `hourIdx` folds day roll-over into one counter.
-/

namespace AQ

set_option autoImplicit false

/-! ## Primitive text operations

Python's `str.split`/`str.strip` and the single-character separators used
by the provider are modelled by structurally recursive operations on the
string's character list (so that every concrete computation reduces).
-/

/-- Split a string on a single separator character (`str.split(sep)` for a
one-character separator). -/
def splitOnChar (c : Char) (s : String) : List String :=
  (s.data.splitOn c).map fun l => String.mk l

/-- `str.strip()` / pandas `.str.strip()`: drop leading and trailing
whitespace. -/
def pyStrip (s : String) : String :=
  String.mk (((s.data.dropWhile Char.isWhitespace).reverse.dropWhile
    Char.isWhitespace).reverse)

/-! ## Timestamps

`Timestamp` models a pandas `Timestamp` produced by
`pd.to_datetime(_, format="%Y/%m/%d %H:%M:%S", errors="coerce")`
(transform.py lines 70-75).  `parseTimestamp` is the embedding of that call
on a single cell.  pandas parses an explicit non-ISO format with its
`array_strptime`, a port of CPython's `_strptime` regular expressions, so
the accepted shape is the strptime one, not a fixed-width literal:
`%Y` is exactly four digits, `%m`/`%d`/`%H`/`%M`/`%S` are one *or* two
digits (zero-padding optional), the literal separators `/` and `:` match
themselves, and the space in the format matches one or more whitespace
characters; the match is anchored at both ends.  A match must then build a
real timestamp: impossible calendar fields (month 13, Feb 30, second 60)
raise and, under `errors="coerce"`, become `NaT` (`none`), as do years
outside the nanosecond-representable range 1678-2261.
-/

structure Timestamp where
  year : Nat
  month : Nat
  day : Nat
  hour : Nat
  minute : Nat
  second : Nat
  deriving DecidableEq, Repr

def isLeap (y : Nat) : Bool :=
  (y % 4 == 0 && y % 100 != 0) || (y % 400 == 0)

def daysInMonth (y m : Nat) : Nat :=
  if m == 2 then (if isLeap y then 29 else 28)
  else if m == 4 || m == 6 || m == 9 || m == 11 then 30
  else 31

/-- Calendar validity enforced by pandas when a string matches the format:
real month, real day of that month, in-range time of day, and a year
representable as a nanosecond timestamp. -/
def validTs (t : Timestamp) : Bool :=
  1678 ≤ t.year && t.year ≤ 2261 &&
  1 ≤ t.month && t.month ≤ 12 &&
  1 ≤ t.day && t.day ≤ daysInMonth t.year t.month &&
  t.hour < 24 && t.minute < 60 && t.second < 60

/-- Numeric value of a digit character. -/
def d2n (c : Char) : Nat := c.toNat - 48

/-- Longest prefix of characters satisfying `p`, with the remainder
(the regex engine's maximal munch of a character class; a field's run is
always delimited by a non-matching separator, so no backtracking can
produce a different split). -/
def spanP (p : Char → Bool) : List Char → List Char × List Char
  | [] => ([], [])
  | c :: cs =>
    if p c then (c :: (spanP p cs).1, (spanP p cs).2)
    else ([], c :: cs)

/-- Numeric value of a run of digit characters. -/
def digitsVal (l : List Char) : Nat :=
  l.foldl (fun acc c => acc * 10 + d2n c) 0

/-- `%Y`: exactly four digits. -/
def parseYear4 (l : List Char) : Option (Nat × List Char) :=
  if (spanP Char.isDigit l).1.length = 4 then
    some (digitsVal (spanP Char.isDigit l).1, (spanP Char.isDigit l).2)
  else none

/-- `%m`/`%d`/`%H`/`%M`/`%S`: one or two digits, zero-padding optional. -/
def parseField12 (l : List Char) : Option (Nat × List Char) :=
  if (spanP Char.isDigit l).1.length = 1 ∨ (spanP Char.isDigit l).1.length = 2 then
    some (digitsVal (spanP Char.isDigit l).1, (spanP Char.isDigit l).2)
  else none

/-- A literal separator character of the format. -/
def parseChar (c : Char) : List Char → Option (List Char)
  | [] => none
  | x :: rest => if x = c then some rest else none

/-- Whitespace in the format: one or more whitespace characters. -/
def parseWhite1 (l : List Char) : Option (List Char) :=
  if (spanP Char.isWhitespace l).1 = [] then none
  else some (spanP Char.isWhitespace l).2

def parseTimestamp (s : String) : Option Timestamp := do
  let (y, r1) ← parseYear4 s.data
  let r2 ← parseChar '/' r1
  let (mo, r3) ← parseField12 r2
  let r4 ← parseChar '/' r3
  let (dy, r5) ← parseField12 r4
  let r6 ← parseWhite1 r5
  let (h, r7) ← parseField12 r6
  let r8 ← parseChar ':' r7
  let (mi, r9) ← parseField12 r8
  let r10 ← parseChar ':' r9
  let (sec, r11) ← parseField12 r10
  if r11 = [] then
    let t : Timestamp :=
      { year := y, month := mo, day := dy, hour := h, minute := mi, second := sec }
    if validTs t then some t else none
  else none

instance : BEq Timestamp := ⟨fun a b => decide (a = b)⟩

instance : LawfulBEq Timestamp where
  eq_of_beq h := of_decide_eq_true h
  rfl := by intro a; exact decide_eq_true rfl

/-! ## The merged record (transform.py output, load.py input)

`MergedMeasurement` rows as produced by `transform` after the rename at
transform.py lines 54-69.  All cell contents are kept as strings; a `none`
field is a pandas `NaN`/`NaT`.
-/

structure MergedRow where
  start_time : Option Timestamp
  end_time : Option Timestamp
  organization : Option String
  site_name : Option String
  pollutant : Option String
  raw_value : Option String
  unit : Option String
  quality_code : Option String
  validity : Option String
  city : Option String
  longitude : Option String
  latitude : Option String
  deriving DecidableEq, Repr

/-! ## Loader (load.py)

`load` runs against a destination table modelled as `List MergedRow`.
Schema reconciliation (load.py lines 52-122: existence check that only
logs, column additions, index creation) touches no rows and is not part of
the row-level model; the insertion transaction (lines 124-140) is.

The Python function's signature is `-> None` and its body ends without a
`return` statement, so its return value, modelled by the `ret` field, is
always `none`; `insertedCount` is the `result_insert.rowcount` value the
function computes and logs (lines 137-143).  `records` is the caller's
DataFrame after the call: line 130 strips `site_name` in place.
-/

/-- SQL conflict test for the uniqueness index on
(site_name, start_time, end_time): rows conflict exactly when every key
component is non-NULL and equal (a NULL component never equals anything,
so it never conflicts). -/
def keyConflicts (a b : MergedRow) : Bool :=
  match a.site_name, b.site_name, a.start_time, b.start_time,
        a.end_time, b.end_time with
  | some s1, some s2, some t1, some t2, some u1, some u2 =>
      s1 == s2 && t1 == t2 && u1 == u2
  | _, _, _, _, _, _ => false

/-- `INSERT ... ON CONFLICT DO NOTHING` over a batch: rows are inserted in
order, each skipped when it conflicts with a row already in the table
(including rows inserted earlier in the same batch).  Returns the new table
and the `rowcount` of rows actually inserted. -/
def insertAll (store : List MergedRow) : List MergedRow → List MergedRow × Nat
  | [] => (store, 0)
  | r :: rest =>
    if store.any (fun x => keyConflicts r x) then insertAll store rest
    else
      let (st, n) := insertAll (store ++ [r]) rest
      (st, n + 1)

/-- In-place `df["site_name"] = df["site_name"].str.strip()`
(load.py line 130); `.str.strip()` keeps `NaN` as `NaN`. -/
def stripSiteName (r : MergedRow) : MergedRow :=
  { r with site_name := r.site_name.map pyStrip }

structure LoadResult where
  records : List MergedRow
  store : List MergedRow
  ret : Option Nat
  insertedCount : Nat
  deriving Repr

def load (df : List MergedRow) (store : List MergedRow) : LoadResult :=
  let df2 := df.map stripSiteName
  let (st, n) := insertAll store df2
  { records := df2, store := st, ret := none, insertedCount := n }

inductive LoadErr where
  | adaptNaT
  deriving DecidableEq, Repr

/-- Whether the batch survives parameter adaptation:
`df.to_dict(orient="records")` (load.py line 133) hands `pd.NaT` through
unchanged for a failed timestamp parse, and psycopg2 cannot adapt
`NaTType` (Postgres likewise rejects the literal), so the INSERT raises
before writing any row whenever some record carries a `NaT`
start/end time. -/
def rowsAdaptable (df : List MergedRow) : Bool :=
  df.all (fun r => r.start_time.isSome && r.end_time.isSome)

/-- One `load` call as the program executes the insertion transaction:
`site_name` is stripped in place first (line 130), then the batch insert
either raises on a non-adaptable batch (a `NaT` parameter) or performs
the conflict-ignore insert of `load`. -/
def load_run (df store : List MergedRow) : Except LoadErr LoadResult :=
  if rowsAdaptable df then .ok (load df store) else .error .adaptNaT

/-! ## Transformer (transform.py)

`transform(measurements_text, locations_text, sep)` parses two
`;`-separated CSV texts with `pd.read_csv`, projects each to its required
columns, left-joins them on the site code, renames the columns and parses
the two timestamp columns.

CSV parsing is modelled as: first line is the header, remaining non-blank
lines are data rows, fields split on the separator; an empty field is
`NaN` (`none`), a row shorter than the header reads as `NaN` in the
missing columns.

Column projection `df[[...]]` raises a `KeyError` when a requested column
is absent; `transform` does not catch it, so the embedding returns it in
`Except`.  The Python function returns `None` (the Failure sentinel) when
either input text is falsy (line 28 guard failing), mapped to `.ok none`.
-/

inductive TExn where
  | keyError (col : String)
  deriving DecidableEq, Repr

inductive TLog where
  | errorMissingInput
  | warnMissingCoords (n : Nat)
  | warnMissingMeasurements (n : Nat)
  | infoMerged (n : Nat)
  deriving DecidableEq, Repr

/-- Python truthiness of an `str | None` value: `None` and `""` are falsy. -/
def truthy : Option String → Bool
  | none => false
  | some s => !(s == "")

/-- Header row and data rows of a `;`-separated CSV text
(`pd.read_csv(StringIO(text), sep=sep)`); blank lines are skipped. -/
def parseCSVtext (sep : Char) (s : String) : List String × List (List String) :=
  match (splitOnChar '\n' s).filter (fun line => !(line == "")) with
  | [] => ([], [])
  | header :: rows => (splitOnChar sep header, rows.map (fun r => splitOnChar sep r))

/-- Read one cell of a data row: column `i`, empty or absent cells are
pandas `NaN`. -/
def cell (r : List String) (i : Nat) : Option String :=
  match r.get? i with
  | none => none
  | some v => if v == "" then none else some v

/-- Index of a column name in the header, or the `KeyError` that
`df[[...]]` raises when the column is missing. -/
def findCol (headers : List String) (name : String) : Except TExn Nat :=
  match headers.indexOf? name with
  | some i => .ok i
  | none => .error (.keyError name)

/-- One measurements row after the projection at transform.py lines 30-43,
fields in the provider's column order. -/
structure MeasRow where
  dateDebut : Option String
  dateFin : Option String
  organisme : Option String
  codeSite : Option String
  nomSite : Option String
  polluant : Option String
  valeurBrute : Option String
  unite : Option String
  codeQualite : Option String
  validite : Option String
  deriving DecidableEq, Repr

/-- One stations row after the projection at transform.py line 45. -/
structure StatRow where
  code : Option String
  commune : Option String
  longitude : Option String
  latitude : Option String
  deriving DecidableEq, Repr

def requiredMeasCols : List String :=
  ["Date de début", "Date de fin", "Organisme", "code site", "nom site",
   "Polluant", "valeur brute", "unité de mesure", "code qualité", "validité"]

def requiredStatCols : List String := ["Code", "Commune", "Longitude", "Latitude"]

/-- `df_measurements[[...]]` (transform.py lines 30-43). -/
def projectMeas (headers : List String) (rows : List (List String)) :
    Except TExn (List MeasRow) := do
  let i0 ← findCol headers "Date de début"
  let i1 ← findCol headers "Date de fin"
  let i2 ← findCol headers "Organisme"
  let i3 ← findCol headers "code site"
  let i4 ← findCol headers "nom site"
  let i5 ← findCol headers "Polluant"
  let i6 ← findCol headers "valeur brute"
  let i7 ← findCol headers "unité de mesure"
  let i8 ← findCol headers "code qualité"
  let i9 ← findCol headers "validité"
  .ok (rows.map fun r =>
    { dateDebut := cell r i0, dateFin := cell r i1, organisme := cell r i2
      codeSite := cell r i3, nomSite := cell r i4, polluant := cell r i5
      valeurBrute := cell r i6, unite := cell r i7, codeQualite := cell r i8
      validite := cell r i9 })

/-- `df_stations[["Code", "Commune", "Longitude", "Latitude"]]`
(transform.py line 45). -/
def projectStat (headers : List String) (rows : List (List String)) :
    Except TExn (List StatRow) := do
  let i0 ← findCol headers "Code"
  let i1 ← findCol headers "Commune"
  let i2 ← findCol headers "Longitude"
  let i3 ← findCol headers "Latitude"
  .ok (rows.map fun r =>
    { code := cell r i0, commune := cell r i1
      longitude := cell r i2, latitude := cell r i3 })

/-- Join condition of `pd.merge(..., left_on="code site", right_on="Code")`.
pandas factorises the key columns and `NaN` receives an ordinary code, so a
`NaN` site code matches a `NaN` station code just like any other value. -/
def codeMatches (m : MeasRow) (s : StatRow) : Bool :=
  m.codeSite == s.code

/-- Left outer join (`how="left"`): each measurements row is paired with
every stations row whose code matches, in order; a row with no match is
kept once with no station. -/
def mergeLeft (ms : List MeasRow) (ss : List StatRow) :
    List (MeasRow × Option StatRow) :=
  ms.flatMap fun m =>
    match ss.filter (fun s => codeMatches m s) with
    | [] => [(m, none)]
    | l => l.map (fun s => (m, some s))

/-- Rename to the canonical columns (transform.py lines 54-69) and parse
the two timestamp columns (lines 70-75); the dropped `code site`/`Code`
columns (line 53) do not appear. -/
def buildRow (p : MeasRow × Option StatRow) : MergedRow :=
  { start_time := p.1.dateDebut.bind parseTimestamp
    end_time := p.1.dateFin.bind parseTimestamp
    organization := p.1.organisme
    site_name := p.1.nomSite
    pollutant := p.1.polluant
    raw_value := p.1.valeurBrute
    unit := p.1.unite
    quality_code := p.1.codeQualite
    validity := p.1.validite
    city := (p.2.map StatRow.commune).getD none
    longitude := (p.2.map StatRow.longitude).getD none
    latitude := (p.2.map StatRow.latitude).getD none }

def transform (measurements_text locations_text : Option String)
    (sep : Char := ';') : Except TExn (Option (List MergedRow)) × List TLog :=
  if truthy measurements_text && truthy locations_text then
    let pm := parseCSVtext sep (measurements_text.getD "")
    let ps := parseCSVtext ';' (locations_text.getD "")
    match projectMeas pm.1 pm.2 with
    | .error ex => (.error ex, [])
    | .ok ms =>
      match projectStat ps.1 ps.2 with
      | .error ex => (.error ex, [])
      | .ok ss =>
        let merged := (mergeLeft ms ss).map buildRow
        let nCoords := (merged.filter (fun r => r.longitude.isNone)).length
        let nVals := (merged.filter (fun r => r.raw_value.isNone)).length
        let logs :=
          (if nCoords > 0 then [TLog.warnMissingCoords nCoords] else []) ++
          (if nVals > 0 then [TLog.warnMissingMeasurements nVals] else []) ++
          [TLog.infoMerged merged.length]
        (.ok (some merged), logs)
  else (.ok none, [TLog.errorMissingInput])

/-! ## Extractor download loop (extract.py lines 63-80)

After the first-phase export request has produced a file id,
`extract_measurements` runs `for attempt in range(1, max_retries + 1)`
against the download endpoint.  The network is modelled by an oracle
`resp : Nat → Except Unit String` giving each (1-based) attempt's outcome:
`.ok body` for a 2xx response with that body, `.error ()` for a
`requests.RequestException`.  A successful attempt returns
`dl.text.strip()` at once; a failed attempt logs, sleeps and retries; a
fall-through of the loop returns `None`.  `downloadLoop` also counts the
attempts performed.
-/

def downloadLoopAux (resp : Nat → Except Unit String) (attempt : Nat) :
    Nat → Option String × Nat
  | 0 => (none, 0)
  | remaining + 1 =>
    match resp attempt with
    | .ok body => (some (pyStrip body), 1)
    | .error _ =>
      let (r, n) := downloadLoopAux resp (attempt + 1) remaining
      (r, n + 1)

/-- The download loop of `extract_measurements`: result of the call and
number of attempts performed. -/
def downloadLoop (resp : Nat → Except Unit String) (max_retries : Nat) :
    Option String × Nat :=
  downloadLoopAux resp 1 max_retries

/-! ## Configuration and orchestrator (etl_pipeline.py, config.py)

`Env` carries the six environment variables read by config.py
(`None` when unset) together with the network's behaviour for this cycle:
what `extract_measurements` and `extract_stations` would return
(`none` models a fetch that fails and returns `None`).
-/

structure Env where
  API_KEY : Option String
  DB_USERNAME : Option String
  DB_PASSWORD : Option String
  DB_SERVER : Option String
  DB_NAME : Option String
  TABLE_NAME : Option String
  measurementsResp : Option String
  locationsResp : Option String

structure Config where
  api_key : String
  db_username : String
  db_password : String
  db_server : String
  db_name : String
  table_name : String

/-- Keys of `raw_config` whose value is falsy, in dict order
(etl_pipeline.py line 35). -/
def missingKeys (env : Env) : List String :=
  (if truthy env.API_KEY then [] else ["api_key"]) ++
  (if truthy env.DB_USERNAME then [] else ["db_username"]) ++
  (if truthy env.DB_PASSWORD then [] else ["db_password"]) ++
  (if truthy env.DB_SERVER then [] else ["db_server"]) ++
  (if truthy env.DB_NAME then [] else ["db_name"]) ++
  (if truthy env.TABLE_NAME then [] else ["table_name"])

/-- `get_config` (etl_pipeline.py lines 25-39): raises `ValueError`
(modelled by `.error`) when any required value is missing or empty. -/
def get_config (env : Env) : Except (List String) Config :=
  if missingKeys env = [] then
    .ok { api_key := env.API_KEY.getD "", db_username := env.DB_USERNAME.getD ""
          db_password := env.DB_PASSWORD.getD "", db_server := env.DB_SERVER.getD ""
          db_name := env.DB_NAME.getD "", table_name := env.TABLE_NAME.getD "" }
  else .error (missingKeys env)

/-- The exception that reaches `run_etl`'s `except Exception` handler. -/
inductive CycleError where
  | configMissing (ks : List String)
  | fetchMeasurementsFailed
  | fetchLocationsFailed
  | transformFailed
  | transformRaised (ex : TExn)
  deriving DecidableEq, Repr

/-- Terminal state of one `run_etl` call.  The function's `try/except`
catches every exception and logs `ETL failed`, so a cycle always ends in
one of these outcomes and `run_etl` itself never propagates an error. -/
inductive CycleOutcome where
  | completed (inserted : Nat)
  | failedLogged (ex : CycleError)
  deriving DecidableEq, Repr

/-- `run_etl` (etl_pipeline.py lines 42-91) against destination table
`store`: returns the table after the cycle and the cycle's outcome. -/
def run_etl (env : Env) (store : List MergedRow) :
    List MergedRow × CycleOutcome :=
  match get_config env with
  | .error ks => (store, .failedLogged (.configMissing ks))
  | .ok _ =>
    match env.measurementsResp with
    | none => (store, .failedLogged .fetchMeasurementsFailed)
    | some m =>
      match env.locationsResp with
      | none => (store, .failedLogged .fetchLocationsFailed)
      | some l =>
        match transform (some m) (some l) ';' with
        | (.error ex, _) => (store, .failedLogged (.transformRaised ex))
        | (.ok none, _) => (store, .failedLogged .transformFailed)
        | (.ok (some df), _) =>
          let res := load df store
          (res.store, .completed res.insertedCount)

/-- The `while True` scheduling loop of `__main__` (etl_pipeline.py lines
104-115), with the sleeps elided: run `n` consecutive cycles, collecting
each cycle's outcome.  The loop body never terminates the process: every
cycle's failure is swallowed inside `run_etl`. -/
def runCycles (env : Env) (store : List MergedRow) : Nat →
    List MergedRow × List CycleOutcome
  | 0 => (store, [])
  | n + 1 =>
    let (st, oc) := run_etl env store
    let (st2, ocs) := runCycles env st n
    (st2, oc :: ocs)

/-! ## Scheduler instant arithmetic (etl_pipeline.py lines 104-115)

`WallClock` models an aware Europe/Paris `datetime` by its wall-clock
fields; `hourIdx` is the absolute count of hours (folding year, month, day
and hour into one counter), so `+ timedelta(hours=1)` is `hourIdx + 1`
with the sub-hour fields unchanged.
-/

structure WallClock where
  hourIdx : Nat
  minute : Nat
  second : Nat
  microsecond : Nat
  deriving DecidableEq, Repr

def WallClock.wf (t : WallClock) : Prop :=
  t.minute < 60 ∧ t.second < 60 ∧ t.microsecond < 1000000

instance (t : WallClock) : Decidable t.wf := by
  unfold WallClock.wf; infer_instance

def toMicros (t : WallClock) : Nat :=
  ((t.hourIdx * 60 + t.minute) * 60 + t.second) * 1000000 + t.microsecond

/-- Strict order on instants. -/
def ltW (a b : WallClock) : Prop := toMicros a < toMicros b

instance (a b : WallClock) : Decidable (ltW a b) := by
  unfold ltW; infer_instance

/-- `next_run = (now + timedelta(hours=1)).replace(minute=1, second=0,
microsecond=0)` (etl_pipeline.py lines 106-108). -/
def next_run (now : WallClock) : WallClock :=
  { hourIdx := now.hourIdx + 1, minute := 1, second := 0, microsecond := 0 }

/-- `sleep_time = max((next_run - now).total_seconds(), 0)`
(line 109), in microseconds. -/
def sleepMicros (now : WallClock) : Nat :=
  toMicros (next_run now) - toMicros now

/-- An instant of the form HH:01:00 — top of an hour plus one minute
(the shape the spec says the scheduler targets). -/
def isHH01 (t : WallClock) : Prop :=
  t.minute = 1 ∧ t.second = 0 ∧ t.microsecond = 0

instance (t : WallClock) : Decidable (isHH01 t) := by
  unfold isHH01; infer_instance

/-! ## Spec-side characterisation of the timestamp format

The spec says timestamps come in the literal format `YYYY/MM/DD HH:MM:SS`.
`specTsRender` spells that format out independently of `parseTimestamp`:
the character list a timestamp renders to, with zero-padded fields.  A
string "matches the literal format" exactly when it is the rendering of
some calendar-valid timestamp.
-/

def digitChar (n : Nat) : Char := Char.ofNat (48 + n)

def pad2 (n : Nat) : List Char := [digitChar (n / 10 % 10), digitChar (n % 10)]

def pad4 (n : Nat) : List Char :=
  [digitChar (n / 1000 % 10), digitChar (n / 100 % 10),
   digitChar (n / 10 % 10), digitChar (n % 10)]

def specTsRender (t : Timestamp) : List Char :=
  pad4 t.year ++ '/' :: pad2 t.month ++ '/' :: pad2 t.day ++
  ' ' :: pad2 t.hour ++ ':' :: pad2 t.minute ++ ':' :: pad2 t.second

/-- A strptime representation of the field value `n` under `%m`-style
directives: a run of one or two digit characters reading as `n`. -/
def fldRep (n : Nat) (ds : List Char) : Prop :=
  (∀ c ∈ ds, c.isDigit = true) ∧ (ds.length = 1 ∨ ds.length = 2) ∧
  digitsVal ds = n

/-- The shapes `pd.to_datetime(_, format="%Y/%m/%d %H:%M:%S")` accepts for
the timestamp `t`, spelled out independently of the parser: exactly four
year digits, one-or-two-digit month/day/hour/minute/second (zero-padding
optional), the literal `/` and `:` separators, and one or more whitespace
characters between date and time, anchored at both ends. -/
def flexFormat (l : List Char) (t : Timestamp) : Prop :=
  ∃ dy dm dd ws dh dmi dsec : List Char,
    l = dy ++ '/' :: (dm ++ '/' :: (dd ++ (ws ++ (dh ++ ':' :: (dmi ++ ':' :: dsec))))) ∧
    (∀ c ∈ dy, c.isDigit = true) ∧ dy.length = 4 ∧ digitsVal dy = t.year ∧
    fldRep t.month dm ∧ fldRep t.day dd ∧
    ws ≠ [] ∧ (∀ c ∈ ws, c.isWhitespace = true) ∧
    fldRep t.hour dh ∧ fldRep t.minute dmi ∧ fldRep t.second dsec

/-! ## Auxiliary predicates used in the theorem statements -/

/-- All three natural-key components of a row are non-NULL. -/
def hasFullKey (r : MergedRow) : Bool :=
  r.site_name.isSome && r.start_time.isSome && r.end_time.isSome

/-- Two station rows carry the same code (the situation in which a left
join multiplies rows).  `NaN` counts as a value equal to itself, as in the
pandas merge. -/
def sameCode (a b : StatRow) : Bool :=
  a.code == b.code

/-! ## Concrete sample data for witnesses and counterexamples -/

/-- A fully-keyed merged row as `transform` would produce it. -/
def sampleRow : MergedRow :=
  { start_time := some ⟨2024, 5, 1, 10, 0, 0⟩
    end_time := some ⟨2024, 5, 1, 11, 0, 0⟩
    organization := some "Org", site_name := some "Paris Centre"
    pollutant := some "PM2.5", raw_value := some "12.5"
    unit := some "microg/m3", quality_code := some "A", validity := some "1"
    city := some "Paris", longitude := some "2.35", latitude := some "48.85" }

/-- A row whose `start_time` failed to parse (coerced to `NaT`), so its
natural key has a NULL component. -/
def nullKeyRow : MergedRow := { sampleRow with start_time := none }

/-- A row whose `site_name` carries surrounding whitespace. -/
def spacedRow : MergedRow := { sampleRow with site_name := some " A " }

/-- An environment with every variable set except `GEODAIR_API_KEY`, and a
network that would answer both fetches. -/
def envMissingKey : Env :=
  { API_KEY := none, DB_USERNAME := some "u", DB_PASSWORD := some "p"
    DB_SERVER := some "s", DB_NAME := some "d", TABLE_NAME := some "t"
    measurementsResp := some "x", locationsResp := some "y" }

/-- Measurements CSV with all ten provider columns and one data row for
site code FR001. -/
def mtEx : String :=
  "Date de début;Date de fin;Organisme;code site;nom site;Polluant;valeur brute;unité de mesure;code qualité;validité\n2024/05/01 10:00:00;2024/05/01 11:00:00;Org;FR001;Paris Centre;PM2.5;12.5;unit;A;1"

/-- Stations CSV with a single row for code FR001. -/
def ltEx : String := "Code;Commune;Longitude;Latitude\nFR001;Paris;2.35;48.85"

/-- Stations CSV in which code FR001 appears twice. -/
def ltDup : String :=
  "Code;Commune;Longitude;Latitude\nFR001;Paris;2.35;48.85\nFR001;Lyon;4.8;45.7"

/-- Measurements CSV with one data row whose timestamps are not
zero-padded (`2024/5/1`), as strptime accepts. -/
def mtNonPadded : String :=
  "Date de début;Date de fin;Organisme;code site;nom site;Polluant;valeur brute;unité de mesure;code qualité;validité\n2024/5/1 10:00:00;2024/5/1 11:00:00;Org;FR001;Paris Centre;PM2.5;12.5;unit;A;1"

/-- Measurements CSV whose header lacks the required column `validité`. -/
def mtNoValidite : String :=
  "Date de début;Date de fin;Organisme;code site;nom site;Polluant;valeur brute;unité de mesure;code qualité\n2024/05/01 10:00:00;2024/05/01 11:00:00;Org;FR001;Paris Centre;PM2.5;12.5;unit;A"

/-- The value of `projectMeas` on the parse of `mtEx`. -/
def msEx : List MeasRow :=
  [{ dateDebut := some "2024/05/01 10:00:00", dateFin := some "2024/05/01 11:00:00"
     organisme := some "Org", codeSite := some "FR001", nomSite := some "Paris Centre"
     polluant := some "PM2.5", valeurBrute := some "12.5", unite := some "unit"
     codeQualite := some "A", validite := some "1" }]

/-- The value of `projectStat` on the parse of `ltEx`. -/
def ssEx : List StatRow :=
  [{ code := some "FR001", commune := some "Paris"
     longitude := some "2.35", latitude := some "48.85" }]

/-- A download oracle that fails on attempts 1 and 2 and answers attempt 3
with a body carrying surrounding whitespace. -/
def respEx : Nat → Except Unit String :=
  fun i => if i ≤ 2 then .error () else .ok " body "

/-- A download oracle that always fails. -/
def respFail : Nat → Except Unit String := fun _ => .error ()

/-! # Helper lemmas -/

/-- The batch insert grows the table by exactly the reported rowcount. -/
theorem insertAll_length (batch : List MergedRow) : ∀ store : List MergedRow,
    (insertAll store batch).1.length = store.length + (insertAll store batch).2 := by
  induction batch with
  | nil => intro store; simp [insertAll]
  | cons r rest ih =>
    intro store
    unfold insertAll
    by_cases h : store.any (fun x => keyConflicts r x) = true
    · rw [if_pos h]
      have := ih store
      omega
    · rw [if_neg h]
      cases hsn : insertAll (store ++ [r]) rest with
      | mk st n =>
        have := ih (store ++ [r])
        rw [hsn] at this
        simp at this ⊢
        omega

/-! # Claim C1 -/

/-- Claim C1, counterexample: on a concrete one-record set loaded into an
empty table, `load` inserts one row and computes rowcount 1, yet its
return value is `none` — the Python function returns `None`, not the
inserted count. -/
theorem load_return_value_cex :
    (load [sampleRow] []).ret = none ∧ (load [sampleRow] []).insertedCount = 1 :=
  ⟨rfl, rfl⟩

/-- Claim C1 (amended): `load` always returns `None`; the inserted count it
computes and logs equals the number of rows actually added to the
destination table (not the count attempted). -/
theorem load_returns_none_but_counts (df store : List MergedRow) :
    (load df store).ret = none ∧
    (load df store).store.length = store.length + (load df store).insertedCount :=
  ⟨rfl, insertAll_length (df.map stripSiteName) store⟩

/-! # Claim C9 -/

/-- Claim C9, counterexample: a record whose `site_name` is `" A "` does
not come back unchanged from `load` — line 130 of load.py strips it in
the caller's record set. -/
theorem load_mutation_cex :
    (load [spacedRow] []).records ≠ [spacedRow] ∧
    (load [spacedRow] []).records.map MergedRow.site_name = [some "A"] := by
  constructor
  · intro h
    have h2 : (load [spacedRow] []).records.map MergedRow.site_name =
        [spacedRow].map MergedRow.site_name := by rw [h]
    rw [show (load [spacedRow] []).records.map MergedRow.site_name =
        [some "A"] from rfl] at h2
    simp [spacedRow, sampleRow] at h2
  · rfl

/-- Claim C9 (amended): `load` mutates the caller's record set in exactly
one way — `site_name` is trimmed in place on every record; every other
field of every record is unchanged. -/
theorem load_strips_only_site_name (df store : List MergedRow) :
    (load df store).records = df.map stripSiteName ∧
    ∀ r : MergedRow, stripSiteName r =
      { r with site_name := r.site_name.map pyStrip } := by
  constructor
  · unfold load
    cases insertAll store (df.map stripSiteName) with
    | mk st n => rfl
  · intro r; rfl

/-! # Claim C2 -/

/-- Claim C2, counterexample: with `GEODAIR_API_KEY` unset, the scheduling
loop still runs cycles — each one swallows the configuration error as a
logged per-cycle failure; the process does not terminate before any ETL
cycle runs. -/
theorem config_error_swallowed_cex :
    runCycles envMissingKey [] 2 =
      ([], [.failedLogged (.configMissing ["api_key"]),
            .failedLogged (.configMissing ["api_key"])]) := rfl

/-- Claim C2 (amended): a missing required configuration value makes every
cycle fail before any extract/transform/load work (the store is untouched),
but the `ValueError` is raised inside `run_etl`'s `try`, caught by its
catch-all handler and logged as a per-cycle failure; the scheduler keeps
running further cycles instead of the process aborting at startup. -/
theorem config_error_is_per_cycle (env : Env) (store : List MergedRow)
    (h : missingKeys env ≠ []) :
    run_etl env store = (store, .failedLogged (.configMissing (missingKeys env))) ∧
    ∀ n, runCycles env store n =
      (store, List.replicate n (.failedLogged (.configMissing (missingKeys env)))) := by
  have h1 : run_etl env store =
      (store, .failedLogged (.configMissing (missingKeys env))) := by
    unfold run_etl get_config
    rw [if_neg h]
  refine ⟨h1, ?_⟩
  intro n
  induction n with
  | zero => rfl
  | succ k ih =>
    unfold runCycles
    rw [h1]
    simp only [ih, List.replicate_succ]

/-- Claim C2, witness for the amended theorem at a concrete environment
missing only the API key. -/
theorem config_error_is_per_cycle_witness :
    run_etl envMissingKey [] =
      ([], .failedLogged (.configMissing ["api_key"])) ∧
    runCycles envMissingKey [] 2 =
      ([], List.replicate 2 (.failedLogged (.configMissing ["api_key"]))) := by
  have h := config_error_is_per_cycle envMissingKey [] (by decide)
  exact ⟨h.1, h.2 2⟩

/-! # Claim C6 -/

/-- Claim C6, counterexample: at `now` = HH:00:30 the instant HH:01:00 is
of top-of-hour-plus-one-minute form and strictly later than `now`, yet the
scheduler's `next_run` is a strictly later instant still (the next hour's
HH:01:00) — so `next_run` is not the earliest such instant. -/
theorem next_run_not_earliest_cex :
    isHH01 ⟨10, 1, 0, 0⟩ ∧ ltW ⟨10, 0, 30, 0⟩ ⟨10, 1, 0, 0⟩ ∧
    ltW ⟨10, 1, 0, 0⟩ (next_run ⟨10, 0, 30, 0⟩) := by
  refine ⟨⟨rfl, rfl, rfl⟩, ?_, ?_⟩ <;> decide

/-- Claim C6 (amended): the scheduler's next run instant is the *next*
hour's HH:01:00 (one hour ahead of `now`, minute forced to 1, seconds and
microseconds zeroed), always strictly in the future, and the process
sleeps exactly until it; it is the earliest strictly-future HH:01:00
instant whenever `now` is not in the first minute of an hour — when
`now.minute = 0` the imminent same-hour HH:01:00 is skipped. -/
theorem next_run_next_hour (now : WallClock) (h : now.wf) :
    isHH01 (next_run now) ∧ ltW now (next_run now) ∧
    toMicros now + sleepMicros now = toMicros (next_run now) ∧
    (now.minute ≠ 0 → ∀ t, isHH01 t → ltW now t →
      toMicros (next_run now) ≤ toMicros t) := by
  obtain ⟨hm, hs, hu⟩ := h
  refine ⟨⟨rfl, rfl, rfl⟩, ?_, ?_, ?_⟩
  · unfold ltW toMicros next_run
    simp only
    omega
  · unfold sleepMicros toMicros next_run
    simp only
    omega
  · intro hne t ht hlt
    obtain ⟨H, tm, ts, tu⟩ := t
    obtain ⟨ht1, ht2, ht3⟩ := ht
    simp only at ht1 ht2 ht3
    subst ht1; subst ht2; subst ht3
    simp only [ltW, toMicros, next_run] at hlt ⊢
    omega

/-- Claim C6, witness for the amended theorem at a concrete instant. -/
theorem next_run_next_hour_witness :
    isHH01 (next_run ⟨10, 30, 0, 0⟩) ∧
    ltW ⟨10, 30, 0, 0⟩ (next_run ⟨10, 30, 0, 0⟩) ∧
    toMicros ⟨10, 30, 0, 0⟩ + sleepMicros ⟨10, 30, 0, 0⟩ =
      toMicros (next_run ⟨10, 30, 0, 0⟩) ∧
    ((⟨10, 30, 0, 0⟩ : WallClock).minute ≠ 0 → ∀ t, isHH01 t → ltW ⟨10, 30, 0, 0⟩ t →
      toMicros (next_run ⟨10, 30, 0, 0⟩) ≤ toMicros t) :=
  next_run_next_hour ⟨10, 30, 0, 0⟩ (by refine ⟨?_, ?_, ?_⟩ <;> decide)

/-! # Claim C4 -/

/-- If the first `k` attempts starting at `attempt` fail and attempt
`attempt + k` succeeds within the budget, the loop returns that attempt's
trimmed body after exactly `k + 1` attempts. -/
theorem downloadLoopAux_first_success (resp : Nat → Except Unit String)
    (body : String) : ∀ k attempt remaining, k < remaining →
    (∀ i, attempt ≤ i → i < attempt + k → resp i = .error ()) →
    resp (attempt + k) = .ok body →
    downloadLoopAux resp attempt remaining = (some (pyStrip body), k + 1) := by
  intro k
  induction k with
  | zero =>
    intro attempt remaining hk hfail hsucc
    cases remaining with
    | zero => omega
    | succ rem =>
      unfold downloadLoopAux
      rw [show attempt + 0 = attempt from rfl] at hsucc
      rw [hsucc]
  | succ k ih =>
    intro attempt remaining hk hfail hsucc
    cases remaining with
    | zero => omega
    | succ rem =>
      unfold downloadLoopAux
      rw [hfail attempt (Nat.le_refl _) (by omega)]
      have h2 := ih (attempt + 1) rem (by omega)
        (fun i hi1 hi2 => hfail i (by omega) (by omega))
        (by rw [show attempt + 1 + k = attempt + (k + 1) from by omega]; exact hsucc)
      rw [h2]

/-- If every attempt in the budget fails, the loop performs all of them
and returns `None`. -/
theorem downloadLoopAux_all_fail (resp : Nat → Except Unit String) :
    ∀ remaining attempt,
    (∀ i, attempt ≤ i → i < attempt + remaining → resp i = .error ()) →
    downloadLoopAux resp attempt remaining = (none, remaining) := by
  intro remaining
  induction remaining with
  | zero => intro attempt h; rfl
  | succ rem ih =>
    intro attempt h
    unfold downloadLoopAux
    rw [h attempt (Nat.le_refl _) (by omega)]
    rw [ih (attempt + 1) (fun i h1 h2 => h i (by omega) (by omega))]

/-- Claim C4: once the export phase has yielded a file id, the download
endpoint is attempted at most `max_retries` times; if the first `k`
attempts fail and attempt `k + 1` succeeds within the budget, the call
returns that response's trimmed body after exactly `k + 1` attempts with
no further attempt; and an oracle failing on every attempt makes the call
perform exactly `max_retries` attempts and return Failure. -/
theorem download_retry_shortcircuit (resp : Nat → Except Unit String)
    (max_retries k : Nat) (body : String)
    (hk : k < max_retries)
    (hfail : ∀ i, 1 ≤ i → i ≤ k → resp i = .error ())
    (hsucc : resp (k + 1) = .ok body) :
    downloadLoop resp max_retries = (some (pyStrip body), k + 1) ∧
    ∀ r2 : Nat → Except Unit String,
      (∀ i, 1 ≤ i → i ≤ max_retries → r2 i = .error ()) →
      downloadLoop r2 max_retries = (none, max_retries) := by
  constructor
  · unfold downloadLoop
    exact downloadLoopAux_first_success resp body k 1 max_retries hk
      (fun i h1 h2 => hfail i h1 (by omega))
      (by rw [show 1 + k = k + 1 from by omega]; exact hsucc)
  · intro r2 h2
    unfold downloadLoop
    exact downloadLoopAux_all_fail r2 max_retries 1
      (fun i hi1 hi2 => h2 i hi1 (by omega))

/-- Claim C4, witness: two failures then a success with `max_retries = 6`
returns the trimmed body after exactly three attempts; the always-failing
oracle exhausts all six attempts and returns Failure. -/
theorem download_retry_shortcircuit_witness :
    downloadLoop respEx 6 = (some "body", 3) ∧
    downloadLoop respFail 6 = (none, 6) := by
  have h := download_retry_shortcircuit respEx 6 2 " body " (by omega)
    (fun i h1 h2 => by interval_cases i <;> rfl) rfl
  refine ⟨?_, h.2 respFail (fun i h1 h2 => rfl)⟩
  rw [h.1]
  decide

/-! # Claim C7 -/

/-- Claim C7: `transform` returns the Failure sentinel (`None`) and logs
an error whenever either input text is absent (`None`) or empty — in
particular for an empty measurements text with a non-empty locations
text — and it only produces a record set when both inputs are truthy. -/
theorem transform_missing_input (mt lt : Option String) (sep : Char) :
    ((mt = none ∨ mt = some "" ∨ lt = none ∨ lt = some "") →
      transform mt lt sep = (.ok none, [TLog.errorMissingInput])) ∧
    (∀ rows logs, transform mt lt sep = (.ok (some rows), logs) →
      truthy mt = true ∧ truthy lt = true) := by
  constructor
  · intro h
    have hf : (truthy mt && truthy lt) = false := by
      rcases h with h | h | h | h <;> subst h <;> simp [truthy]
    unfold transform
    rw [if_neg (by simp [hf])]
  · intro rows logs h
    unfold transform at h
    by_cases hc : (truthy mt && truthy lt) = true
    · exact ⟨((Bool.and_eq_true _ _).mp hc).1, ((Bool.and_eq_true _ _).mp hc).2⟩
    · rw [if_neg hc] at h
      simp at h

/-- Claim C7, witness: empty measurements text with a non-empty locations
text yields the Failure sentinel and the error log. -/
theorem transform_missing_input_witness :
    transform (some "") (some ltEx) ';' = (.ok none, [TLog.errorMissingInput]) :=
  (transform_missing_input (some "") (some ltEx) ';').1 (Or.inr (Or.inl rfl))

/-! # Claim C3 -/

/-- A row with a fully non-NULL key conflicts with itself. -/
theorem keyConflicts_self (r : MergedRow) (h : hasFullKey r = true) :
    keyConflicts r r = true := by
  unfold hasFullKey at h
  unfold keyConflicts
  cases hs : r.site_name <;> cases ht : r.start_time <;> cases hu : r.end_time <;>
    simp [hs, ht, hu] at h ⊢

/-- Stripping `site_name` preserves key non-NULLness. -/
theorem hasFullKey_stripSiteName (r : MergedRow) :
    hasFullKey (stripSiteName r) = hasFullKey r := by
  unfold hasFullKey stripSiteName
  cases r.site_name <;> rfl

/-- A batch whose rows conflict neither with the table nor with each other
is inserted whole. -/
theorem insertAll_fresh (batch : List MergedRow) : ∀ store : List MergedRow,
    (∀ r ∈ batch, ∀ x ∈ store, keyConflicts r x = false) →
    batch.Pairwise (fun a b => keyConflicts b a = false) →
    insertAll store batch = (store ++ batch, batch.length) := by
  induction batch with
  | nil => intro store _ _; simp [insertAll]
  | cons r rest ih =>
    intro store hfresh hpw
    obtain ⟨hr, hrest⟩ := List.pairwise_cons.mp hpw
    unfold insertAll
    have hany : store.any (fun x => keyConflicts r x) = false := by
      rw [List.any_eq_false]
      intro x hx
      simp [hfresh r (by simp) x hx]
    rw [hany]
    simp only [Bool.false_eq_true, if_false]
    have hfresh2 : ∀ r2 ∈ rest, ∀ x ∈ store ++ [r], keyConflicts r2 x = false := by
      intro r2 hr2 x hx
      rcases List.mem_append.mp hx with hx | hx
      · exact hfresh r2 (by simp [hr2]) x hx
      · rw [List.mem_singleton.mp hx]
        exact hr r2 hr2
    rw [ih (store ++ [r]) hfresh2 hrest]
    simp

/-- A batch every row of which already conflicts with the table inserts
nothing and leaves the table unchanged. -/
theorem insertAll_all_conflict (batch : List MergedRow) : ∀ store : List MergedRow,
    (∀ r ∈ batch, store.any (fun x => keyConflicts r x) = true) →
    insertAll store batch = (store, 0) := by
  induction batch with
  | nil => intro store _; rfl
  | cons r rest ih =>
    intro store h
    unfold insertAll
    rw [h r (by simp)]
    simp only [if_true]
    exact ih store (fun r2 hr2 => h r2 (by simp [hr2]))

/-- Claim C3, counterexample: a record whose `start_time` failed timestamp
parsing is handed to the database driver as `pd.NaT`, which psycopg2
cannot adapt — the whole load call raises instead of returning a count,
so the first load of this one-record set does not yield
inserted_count = 1 = N; the row is neither inserted nor silently
skipped. -/
theorem load_nat_raises_cex :
    load_run [nullKeyRow] [] = .error .adaptNaT ∧
    nullKeyRow.start_time = none :=
  ⟨rfl, rfl⟩

/-- On fully-keyed, pairwise-non-conflicting, fresh record sets the
conflict-ignore insert takes everything the first time and nothing the
second time. -/
theorem load_idempotent_pure (df store : List MergedRow)
    (hkeys : ∀ r ∈ df, hasFullKey r = true)
    (hfresh : ∀ r ∈ df.map stripSiteName, ∀ x ∈ store, keyConflicts r x = false)
    (hnodup : (df.map stripSiteName).Pairwise
      (fun a b => keyConflicts a b = false ∧ keyConflicts b a = false)) :
    (load df store).insertedCount = df.length ∧
    (load df (load df store).store).insertedCount = 0 ∧
    (load df (load df store).store).store.length = (load df store).store.length := by
  have h1 : insertAll store (df.map stripSiteName) =
      (store ++ df.map stripSiteName, (df.map stripSiteName).length) :=
    insertAll_fresh (df.map stripSiteName) store hfresh
      (hnodup.imp (fun h => h.2))
  have hconf : ∀ r ∈ df.map stripSiteName,
      (store ++ df.map stripSiteName).any (fun x => keyConflicts r x) = true := by
    intro r hr
    rw [List.any_eq_true]
    refine ⟨r, List.mem_append.mpr (Or.inr hr), ?_⟩
    obtain ⟨r0, hr0, hrs⟩ := List.mem_map.mp hr
    refine keyConflicts_self r ?_
    rw [← hrs, hasFullKey_stripSiteName]
    exact hkeys r0 hr0
  have h2 : insertAll (store ++ df.map stripSiteName) (df.map stripSiteName) =
      (store ++ df.map stripSiteName, 0) :=
    insertAll_all_conflict (df.map stripSiteName) (store ++ df.map stripSiteName) hconf
  refine ⟨?_, ?_, ?_⟩
  · show (insertAll store (df.map stripSiteName)).2 = df.length
    rw [h1]
    simp
  · show (insertAll (insertAll store (df.map stripSiteName)).1
      (df.map stripSiteName)).2 = 0
    rw [h1]
    rw [show (store ++ df.map stripSiteName, (df.map stripSiteName).length).1 =
      store ++ df.map stripSiteName from rfl]
    rw [h2]
  · show (insertAll (insertAll store (df.map stripSiteName)).1
      (df.map stripSiteName)).1.length = (insertAll store (df.map stripSiteName)).1.length
    rw [h1]
    rw [show (store ++ df.map stripSiteName, (df.map stripSiteName).length).1 =
      store ++ df.map stripSiteName from rfl]
    rw [h2]

/-- Claim C3 (amended): provided every record's natural-key components
(site_name, start_time, end_time) are non-NULL, the records' trimmed keys
are pairwise non-conflicting, and none conflicts with a row already in the
table, both load calls succeed: the first inserts N rows, the second
inserts 0, and the table's row count after the second load equals the
count after the first — rows whose key already exists are silently
skipped, not updated and not erroring.  A record with a NaT timestamp
component instead makes the whole load call raise (psycopg2 cannot adapt
NaT), see the counterexample — it is neither inserted nor skipped. -/
theorem load_idempotent_nonnull (df store : List MergedRow)
    (hkeys : ∀ r ∈ df, hasFullKey r = true)
    (hfresh : ∀ r ∈ df.map stripSiteName, ∀ x ∈ store, keyConflicts r x = false)
    (hnodup : (df.map stripSiteName).Pairwise
      (fun a b => keyConflicts a b = false ∧ keyConflicts b a = false)) :
    ∃ res1, load_run df store = .ok res1 ∧ res1.insertedCount = df.length ∧
      ∃ res2, load_run df res1.store = .ok res2 ∧ res2.insertedCount = 0 ∧
        res2.store.length = res1.store.length := by
  have hadapt : rowsAdaptable df = true := by
    rw [rowsAdaptable, List.all_eq_true]
    intro r hr
    have h2 := hkeys r hr
    unfold hasFullKey at h2
    rw [Bool.and_eq_true, Bool.and_eq_true] at h2
    show (r.start_time.isSome && r.end_time.isSome) = true
    rw [Bool.and_eq_true]
    exact ⟨h2.1.2, h2.2⟩
  have hpure := load_idempotent_pure df store hkeys hfresh hnodup
  refine ⟨load df store, ?_, hpure.1,
    load df (load df store).store, ?_, hpure.2.1, hpure.2.2⟩
  · unfold load_run
    rw [if_pos hadapt]
  · unfold load_run
    rw [if_pos hadapt]

/-- Claim C3, witness: one fully-keyed record into an empty table — first
load succeeds inserting 1, second load succeeds inserting 0, table size
unchanged. -/
theorem load_idempotent_nonnull_witness :
    ∃ res1, load_run [sampleRow] [] = .ok res1 ∧
      res1.insertedCount = [sampleRow].length ∧
      ∃ res2, load_run [sampleRow] res1.store = .ok res2 ∧
        res2.insertedCount = 0 ∧ res2.store.length = res1.store.length := by
  refine load_idempotent_nonnull [sampleRow] [] ?_ ?_ ?_
  · intro r hr
    rw [List.mem_singleton.mp hr]
    rfl
  · intro r _ x hx
    exact absurd hx (List.not_mem_nil x)
  · simp

/-! # Claim C5 -/

/-- The pandas merge matches a measurement to a station exactly when the
two key cells are equal (`NaN` equalling `NaN`). -/
theorem codeMatches_iff (m : MeasRow) (s : StatRow) :
    codeMatches m s = true ↔ m.codeSite = s.code := by
  unfold codeMatches
  exact beq_iff_eq

/-- With pairwise-distinct station codes, at most one station matches any
measurement. -/
theorem filter_codeMatches_len (m : MeasRow) (ss : List StatRow)
    (hnodup : ss.Pairwise (fun a b => sameCode a b = false)) :
    (ss.filter (fun s => codeMatches m s)).length ≤ 1 := by
  induction ss with
  | nil => simp
  | cons s rest ih =>
    obtain ⟨hs, hrest⟩ := List.pairwise_cons.mp hnodup
    by_cases hm : codeMatches m s = true
    · rw [List.filter_cons_of_pos hm]
      have hempty : rest.filter (fun s2 => codeMatches m s2) = [] := by
        rw [List.filter_eq_nil_iff]
        intro s2 hs2 hm2
        have h1 := (codeMatches_iff m s).mp hm
        have h2 := (codeMatches_iff m s2).mp hm2
        have hsame := hs s2 hs2
        unfold sameCode at hsame
        rw [← h1, ← h2] at hsame
        simp at hsame
      rw [hempty]
      simp
    · rw [List.filter_cons_of_neg hm]
      exact ih hrest

/-- With pairwise-distinct station codes, the left join yields exactly one
output row per measurement row. -/
theorem mergeLeft_length (ms : List MeasRow) (ss : List StatRow)
    (hnodup : ss.Pairwise (fun a b => sameCode a b = false)) :
    (mergeLeft ms ss).length = ms.length := by
  induction ms with
  | nil => rfl
  | cons m rest ih =>
    unfold mergeLeft at ih ⊢
    rw [List.flatMap_cons]
    have hlen : (match ss.filter (fun s => codeMatches m s) with
        | [] => [(m, (none : Option StatRow))]
        | l => l.map (fun s => (m, some s))).length = 1 := by
      cases hf : ss.filter (fun s => codeMatches m s) with
      | nil => rfl
      | cons s l =>
        have h1 := filter_codeMatches_len m ss hnodup
        rw [hf] at h1
        simp only [List.length_cons, List.length_map]
        simp only [List.length_cons] at h1
        omega
    rw [List.length_append, hlen, ih]
    simp only [List.length_cons]
    omega

/-- A measurement row matching no station is retained, paired with no
station. -/
theorem mergeLeft_unmatched (ms : List MeasRow) (ss : List StatRow)
    (m : MeasRow) (hm : m ∈ ms) (hnomatch : ∀ s ∈ ss, codeMatches m s = false) :
    (m, (none : Option StatRow)) ∈ mergeLeft ms ss := by
  unfold mergeLeft
  rw [List.mem_flatMap]
  refine ⟨m, hm, ?_⟩
  have hempty : ss.filter (fun s => codeMatches m s) = [] := by
    rw [List.filter_eq_nil_iff]
    intro s hsm hs2
    rw [hnomatch s hsm] at hs2
    exact absurd hs2 (by simp)
  rw [hempty]
  simp

/-- Claim C5, counterexample: a locations text in which station code FR001
appears twice makes the left join produce 2 output records from a single
measurement row — `transform` does not produce exactly one output record
per input measurement row for every valid input pair. -/
theorem transform_dup_station_cex :
    Except.map (Option.map List.length) (transform (some mtEx) (some ltDup) ';').1 =
      .ok (some 2) ∧
    (parseCSVtext ';' mtEx).2.length = 1 :=
  ⟨rfl, rfl⟩

/-- Claim C5 (amended): for valid non-empty inputs whose stations table has
pairwise-distinct codes, `transform` produces exactly one output record per
input measurement row; a measurement row whose site code matches no station
is retained, with NULL city, longitude and latitude.  (When a station code
occurs twice, the left join instead multiplies the matching measurement
rows, see the counterexample.) -/
theorem transform_left_join (mt lt : String) (sep : Char)
    (ms : List MeasRow) (ss : List StatRow)
    (hmt : (mt == "") = false) (hlt : (lt == "") = false)
    (hms : projectMeas (parseCSVtext sep mt).1 (parseCSVtext sep mt).2 = .ok ms)
    (hss : projectStat (parseCSVtext ';' lt).1 (parseCSVtext ';' lt).2 = .ok ss)
    (hnodup : ss.Pairwise (fun a b => sameCode a b = false)) :
    (transform (some mt) (some lt) sep).1 =
      .ok (some ((mergeLeft ms ss).map buildRow)) ∧
    ((mergeLeft ms ss).map buildRow).length = ms.length ∧
    ∀ m ∈ ms, (∀ s ∈ ss, codeMatches m s = false) →
      (m, (none : Option StatRow)) ∈ mergeLeft ms ss ∧
      (buildRow (m, none)).city = none ∧
      (buildRow (m, none)).longitude = none ∧
      (buildRow (m, none)).latitude = none := by
  refine ⟨?_, ?_, ?_⟩
  · unfold transform
    rw [if_pos (by simp [truthy, hmt, hlt])]
    simp only [Option.getD_some]
    rw [hms, hss]
  · rw [List.length_map, mergeLeft_length ms ss hnodup]
  · intro m hm hno
    exact ⟨mergeLeft_unmatched ms ss m hm hno, rfl, rfl, rfl⟩

/-- Claim C5, witness for the amended theorem on a concrete pair of CSV
texts with a single station of unique code. -/
theorem transform_left_join_witness :
    (transform (some mtEx) (some ltEx) ';').1 =
      .ok (some ((mergeLeft msEx ssEx).map buildRow)) ∧
    ((mergeLeft msEx ssEx).map buildRow).length = msEx.length ∧
    ∀ m ∈ msEx, (∀ s ∈ ssEx, codeMatches m s = false) →
      (m, (none : Option StatRow)) ∈ mergeLeft msEx ssEx ∧
      (buildRow (m, none)).city = none ∧
      (buildRow (m, none)).longitude = none ∧
      (buildRow (m, none)).latitude = none :=
  transform_left_join mtEx ltEx ';' msEx ssEx rfl rfl rfl rfl (by simp [ssEx])

/-! # Claim C10 -/

/-- Reduction of `Except` bind on a success. -/
theorem ebind_ok {α β : Type} (a : α) (g : α → Except TExn β) :
    (Except.ok a >>= g) = g a := rfl

/-- Reduction of `Except` bind on an error. -/
theorem ebind_err {α β : Type} (ex : TExn) (g : α → Except TExn β) :
    ((Except.error ex : Except TExn α) >>= g) = Except.error ex := rfl

theorem mem_of_indexOf?_eq_some (l : List String) (a : String) (i : Nat)
    (h : l.indexOf? a = some i) : a ∈ l := by
  by_contra hm
  rw [List.indexOf?_eq_none_iff.mpr] at h
  · simp at h
  · intro x hx
    simp
    intro he
    exact hm (he ▸ hx)

theorem findCol_ok_mem (hs : List String) (c : String) (i : Nat)
    (h : findCol hs c = .ok i) : c ∈ hs := by
  unfold findCol at h
  cases hidx : hs.indexOf? c with
  | none => rw [hidx] at h; exact absurd h (by simp)
  | some j => exact mem_of_indexOf?_eq_some hs c j hidx

theorem findCol_error_not_mem (hs : List String) (c : String) (ex : TExn)
    (h : findCol hs c = .error ex) : c ∉ hs ∧ ex = TExn.keyError c := by
  unfold findCol at h
  cases hidx : hs.indexOf? c with
  | some j => rw [hidx] at h; exact absurd h (by simp)
  | none =>
    rw [hidx] at h
    injection h with h2
    refine ⟨?_, h2.symm⟩
    intro hm
    have h3 := List.indexOf?_eq_none_iff.mp hidx
    have h4 := h3 c hm
    simp at h4

/-- A successful measurement projection certifies that every required
provider column is present in the header. -/
theorem projectMeas_ok_mem (hs : List String) (rows : List (List String))
    (ms : List MeasRow) (h : projectMeas hs rows = .ok ms) :
    ∀ c ∈ requiredMeasCols, c ∈ hs := by
  unfold projectMeas at h
  cases h0 : findCol hs "Date de début" with
  | error ex => rw [h0, ebind_err] at h; exact absurd h (by simp)
  | ok i0 =>
  rw [h0, ebind_ok] at h
  cases h1 : findCol hs "Date de fin" with
  | error ex => rw [h1, ebind_err] at h; exact absurd h (by simp)
  | ok i1 =>
  rw [h1, ebind_ok] at h
  cases h2 : findCol hs "Organisme" with
  | error ex => rw [h2, ebind_err] at h; exact absurd h (by simp)
  | ok i2 =>
  rw [h2, ebind_ok] at h
  cases h3 : findCol hs "code site" with
  | error ex => rw [h3, ebind_err] at h; exact absurd h (by simp)
  | ok i3 =>
  rw [h3, ebind_ok] at h
  cases h4 : findCol hs "nom site" with
  | error ex => rw [h4, ebind_err] at h; exact absurd h (by simp)
  | ok i4 =>
  rw [h4, ebind_ok] at h
  cases h5 : findCol hs "Polluant" with
  | error ex => rw [h5, ebind_err] at h; exact absurd h (by simp)
  | ok i5 =>
  rw [h5, ebind_ok] at h
  cases h6 : findCol hs "valeur brute" with
  | error ex => rw [h6, ebind_err] at h; exact absurd h (by simp)
  | ok i6 =>
  rw [h6, ebind_ok] at h
  cases h7 : findCol hs "unité de mesure" with
  | error ex => rw [h7, ebind_err] at h; exact absurd h (by simp)
  | ok i7 =>
  rw [h7, ebind_ok] at h
  cases h8 : findCol hs "code qualité" with
  | error ex => rw [h8, ebind_err] at h; exact absurd h (by simp)
  | ok i8 =>
  rw [h8, ebind_ok] at h
  cases h9 : findCol hs "validité" with
  | error ex => rw [h9, ebind_err] at h; exact absurd h (by simp)
  | ok i9 =>
  intro c hc
  simp only [requiredMeasCols, List.mem_cons, List.not_mem_nil, or_false] at hc
  rcases hc with rfl | rfl | rfl | rfl | rfl | rfl | rfl | rfl | rfl | rfl
  · exact findCol_ok_mem _ _ _ h0
  · exact findCol_ok_mem _ _ _ h1
  · exact findCol_ok_mem _ _ _ h2
  · exact findCol_ok_mem _ _ _ h3
  · exact findCol_ok_mem _ _ _ h4
  · exact findCol_ok_mem _ _ _ h5
  · exact findCol_ok_mem _ _ _ h6
  · exact findCol_ok_mem _ _ _ h7
  · exact findCol_ok_mem _ _ _ h8
  · exact findCol_ok_mem _ _ _ h9

/-- A successful stations projection certifies that every required station
column is present in the header. -/
theorem projectStat_ok_mem (hs : List String) (rows : List (List String))
    (ss : List StatRow) (h : projectStat hs rows = .ok ss) :
    ∀ c ∈ requiredStatCols, c ∈ hs := by
  unfold projectStat at h
  cases h0 : findCol hs "Code" with
  | error ex => rw [h0, ebind_err] at h; exact absurd h (by simp)
  | ok i0 =>
  rw [h0, ebind_ok] at h
  cases h1 : findCol hs "Commune" with
  | error ex => rw [h1, ebind_err] at h; exact absurd h (by simp)
  | ok i1 =>
  rw [h1, ebind_ok] at h
  cases h2 : findCol hs "Longitude" with
  | error ex => rw [h2, ebind_err] at h; exact absurd h (by simp)
  | ok i2 =>
  rw [h2, ebind_ok] at h
  cases h3 : findCol hs "Latitude" with
  | error ex => rw [h3, ebind_err] at h; exact absurd h (by simp)
  | ok i3 =>
  intro c hc
  simp only [requiredStatCols, List.mem_cons, List.not_mem_nil, or_false] at hc
  rcases hc with rfl | rfl | rfl | rfl
  · exact findCol_ok_mem _ _ _ h0
  · exact findCol_ok_mem _ _ _ h1
  · exact findCol_ok_mem _ _ _ h2
  · exact findCol_ok_mem _ _ _ h3

/-- If any required measurement column is absent, the projection raises a
`KeyError` naming an absent column. -/
theorem projectMeas_missing_error (hs : List String) (rows : List (List String))
    (hmiss : ∃ c ∈ requiredMeasCols, c ∉ hs) :
    ∃ c2, projectMeas hs rows = .error (.keyError c2) ∧ c2 ∉ hs := by
  unfold projectMeas
  cases h0 : findCol hs "Date de début" with
  | error ex =>
    obtain ⟨hnm, hkey⟩ := findCol_error_not_mem hs _ ex h0
    subst hkey
    rw [ebind_err]
    exact ⟨_, rfl, hnm⟩
  | ok i0 =>
  rw [ebind_ok]
  cases h1 : findCol hs "Date de fin" with
  | error ex =>
    obtain ⟨hnm, hkey⟩ := findCol_error_not_mem hs _ ex h1
    subst hkey
    rw [ebind_err]
    exact ⟨_, rfl, hnm⟩
  | ok i1 =>
  rw [ebind_ok]
  cases h2 : findCol hs "Organisme" with
  | error ex =>
    obtain ⟨hnm, hkey⟩ := findCol_error_not_mem hs _ ex h2
    subst hkey
    rw [ebind_err]
    exact ⟨_, rfl, hnm⟩
  | ok i2 =>
  rw [ebind_ok]
  cases h3 : findCol hs "code site" with
  | error ex =>
    obtain ⟨hnm, hkey⟩ := findCol_error_not_mem hs _ ex h3
    subst hkey
    rw [ebind_err]
    exact ⟨_, rfl, hnm⟩
  | ok i3 =>
  rw [ebind_ok]
  cases h4 : findCol hs "nom site" with
  | error ex =>
    obtain ⟨hnm, hkey⟩ := findCol_error_not_mem hs _ ex h4
    subst hkey
    rw [ebind_err]
    exact ⟨_, rfl, hnm⟩
  | ok i4 =>
  rw [ebind_ok]
  cases h5 : findCol hs "Polluant" with
  | error ex =>
    obtain ⟨hnm, hkey⟩ := findCol_error_not_mem hs _ ex h5
    subst hkey
    rw [ebind_err]
    exact ⟨_, rfl, hnm⟩
  | ok i5 =>
  rw [ebind_ok]
  cases h6 : findCol hs "valeur brute" with
  | error ex =>
    obtain ⟨hnm, hkey⟩ := findCol_error_not_mem hs _ ex h6
    subst hkey
    rw [ebind_err]
    exact ⟨_, rfl, hnm⟩
  | ok i6 =>
  rw [ebind_ok]
  cases h7 : findCol hs "unité de mesure" with
  | error ex =>
    obtain ⟨hnm, hkey⟩ := findCol_error_not_mem hs _ ex h7
    subst hkey
    rw [ebind_err]
    exact ⟨_, rfl, hnm⟩
  | ok i7 =>
  rw [ebind_ok]
  cases h8 : findCol hs "code qualité" with
  | error ex =>
    obtain ⟨hnm, hkey⟩ := findCol_error_not_mem hs _ ex h8
    subst hkey
    rw [ebind_err]
    exact ⟨_, rfl, hnm⟩
  | ok i8 =>
  rw [ebind_ok]
  cases h9 : findCol hs "validité" with
  | error ex =>
    obtain ⟨hnm, hkey⟩ := findCol_error_not_mem hs _ ex h9
    subst hkey
    rw [ebind_err]
    exact ⟨_, rfl, hnm⟩
  | ok i9 =>
  exfalso
  obtain ⟨c, hc, hcm⟩ := hmiss
  simp only [requiredMeasCols, List.mem_cons, List.not_mem_nil, or_false] at hc
  rcases hc with rfl | rfl | rfl | rfl | rfl | rfl | rfl | rfl | rfl | rfl
  · exact hcm (findCol_ok_mem _ _ _ h0)
  · exact hcm (findCol_ok_mem _ _ _ h1)
  · exact hcm (findCol_ok_mem _ _ _ h2)
  · exact hcm (findCol_ok_mem _ _ _ h3)
  · exact hcm (findCol_ok_mem _ _ _ h4)
  · exact hcm (findCol_ok_mem _ _ _ h5)
  · exact hcm (findCol_ok_mem _ _ _ h6)
  · exact hcm (findCol_ok_mem _ _ _ h7)
  · exact hcm (findCol_ok_mem _ _ _ h8)
  · exact hcm (findCol_ok_mem _ _ _ h9)

/-- If any required station column is absent, the projection raises a
`KeyError` naming an absent column. -/
theorem projectStat_missing_error (hs : List String) (rows : List (List String))
    (hmiss : ∃ c ∈ requiredStatCols, c ∉ hs) :
    ∃ c2, projectStat hs rows = .error (.keyError c2) ∧ c2 ∉ hs := by
  unfold projectStat
  cases h0 : findCol hs "Code" with
  | error ex =>
    obtain ⟨hnm, hkey⟩ := findCol_error_not_mem hs _ ex h0
    subst hkey
    rw [ebind_err]
    exact ⟨_, rfl, hnm⟩
  | ok i0 =>
  rw [ebind_ok]
  cases h1 : findCol hs "Commune" with
  | error ex =>
    obtain ⟨hnm, hkey⟩ := findCol_error_not_mem hs _ ex h1
    subst hkey
    rw [ebind_err]
    exact ⟨_, rfl, hnm⟩
  | ok i1 =>
  rw [ebind_ok]
  cases h2 : findCol hs "Longitude" with
  | error ex =>
    obtain ⟨hnm, hkey⟩ := findCol_error_not_mem hs _ ex h2
    subst hkey
    rw [ebind_err]
    exact ⟨_, rfl, hnm⟩
  | ok i2 =>
  rw [ebind_ok]
  cases h3 : findCol hs "Latitude" with
  | error ex =>
    obtain ⟨hnm, hkey⟩ := findCol_error_not_mem hs _ ex h3
    subst hkey
    rw [ebind_err]
    exact ⟨_, rfl, hnm⟩
  | ok i3 =>
  exfalso
  obtain ⟨c, hc, hcm⟩ := hmiss
  simp only [requiredStatCols, List.mem_cons, List.not_mem_nil, or_false] at hc
  rcases hc with rfl | rfl | rfl | rfl
  · exact hcm (findCol_ok_mem _ _ _ h0)
  · exact hcm (findCol_ok_mem _ _ _ h1)
  · exact hcm (findCol_ok_mem _ _ _ h2)
  · exact hcm (findCol_ok_mem _ _ _ h3)

/-- Claim C10: for truthy inputs, `transform` returns a record set only
when the parsed measurements table contains all ten required provider
columns and the parsed stations table all four station columns; when any
of them is absent it does not return the documented Failure sentinel
(`None`) but errors with a `KeyError` that escapes to the caller. -/
theorem transform_requires_all_columns (mt lt : Option String) (sep : Char) :
    (∀ rows logs, transform mt lt sep = (.ok (some rows), logs) →
      (∀ c ∈ requiredMeasCols, c ∈ (parseCSVtext sep (mt.getD "")).1) ∧
      (∀ c ∈ requiredStatCols, c ∈ (parseCSVtext ';' (lt.getD "")).1)) ∧
    (truthy mt = true → truthy lt = true →
      ((∃ c ∈ requiredMeasCols, c ∉ (parseCSVtext sep (mt.getD "")).1) ∨
       (∃ c ∈ requiredStatCols, c ∉ (parseCSVtext ';' (lt.getD "")).1)) →
      ∃ c2, (transform mt lt sep).1 = .error (.keyError c2)) := by
  constructor
  · intro rows logs h
    unfold transform at h
    by_cases hc : (truthy mt && truthy lt) = true
    · rw [if_pos hc] at h
      simp only [] at h
      cases hpm : projectMeas (parseCSVtext sep (mt.getD "")).1
          (parseCSVtext sep (mt.getD "")).2 with
      | error ex => rw [hpm] at h; simp at h
      | ok ms =>
        rw [hpm] at h
        cases hps : projectStat (parseCSVtext ';' (lt.getD "")).1
            (parseCSVtext ';' (lt.getD "")).2 with
        | error ex => rw [hps] at h; simp at h
        | ok ss =>
          exact ⟨projectMeas_ok_mem _ _ ms hpm, projectStat_ok_mem _ _ ss hps⟩
    · rw [if_neg hc] at h
      simp at h
  · intro htm htl hmiss
    unfold transform
    rw [if_pos (by rw [htm, htl]; rfl)]
    simp only []
    rcases hmiss with hmiss | hmiss
    · obtain ⟨c2, hpm, hnm⟩ := projectMeas_missing_error
        (parseCSVtext sep (mt.getD "")).1 (parseCSVtext sep (mt.getD "")).2 hmiss
      rw [hpm]
      exact ⟨c2, rfl⟩
    · cases hpm : projectMeas (parseCSVtext sep (mt.getD "")).1
          (parseCSVtext sep (mt.getD "")).2 with
      | error ex =>
        cases ex with
        | keyError c2 => exact ⟨c2, rfl⟩
      | ok ms =>
        obtain ⟨c2, hps, hnm⟩ := projectStat_missing_error
          (parseCSVtext ';' (lt.getD "")).1 (parseCSVtext ';' (lt.getD "")).2 hmiss
        rw [hps]
        exact ⟨c2, rfl⟩

/-- Claim C10, witness: a measurements CSV lacking the `validité` column
makes `transform` raise a `KeyError` instead of returning the Failure
sentinel. -/
theorem transform_requires_all_columns_witness :
    ∃ c2, (transform (some mtNoValidite) (some ltEx) ';').1 =
      .error (.keyError c2) :=
  (transform_requires_all_columns (some mtNoValidite) (some ltEx) ';').2 rfl rfl
    (Or.inl ⟨"validité", by simp [requiredMeasCols], by decide⟩)

/-! # Claim C8 -/

theorem isDigit_digitChar (n : Nat) (h : n ≤ 9) : (digitChar n).isDigit = true := by
  interval_cases n <;> decide

theorem d2n_digitChar (n : Nat) (h : n ≤ 9) : d2n (digitChar n) = n := by
  interval_cases n <;> decide

theorem daysInMonth_le (y m : Nat) : daysInMonth y m ≤ 31 := by
  unfold daysInMonth
  split
  · split <;> omega
  · split <;> omega

theorem whitespace_not_digit (c : Char) (h : c.isWhitespace = true) :
    c.isDigit = false := by
  simp only [Char.isWhitespace, Bool.or_eq_true, decide_eq_true_eq, or_assoc] at h
  rcases h with h | h | h | h <;> subst h <;> decide

theorem digit_not_whitespace (c : Char) (h : c.isDigit = true) :
    c.isWhitespace = false := by
  cases hw : c.isWhitespace
  · rfl
  · rw [whitespace_not_digit c hw] at h
    exact absurd h (by simp)

/-- What a maximal-munch span certifies: the input splits into the matched
prefix and the remainder, whose first character (if any) fails `p`. -/
theorem spanP_sound (p : Char → Bool) :
    ∀ l ds rest : List Char, spanP p l = (ds, rest) →
    l = ds ++ rest ∧ (∀ c ∈ ds, p c = true) ∧
    (∀ c cs, rest = c :: cs → p c = false) := by
  intro l
  induction l with
  | nil =>
    intro ds rest h
    unfold spanP at h
    injection h with h1 h2
    subst h1; subst h2
    refine ⟨rfl, by simp, ?_⟩
    intro c cs hcc
    exact absurd hcc (by simp)
  | cons c cs ih =>
    intro ds rest h
    unfold spanP at h
    by_cases hp : p c = true
    · rw [if_pos hp] at h
      cases hsp : spanP p cs with
      | mk ds2 rest2 =>
        rw [hsp] at h
        injection h with h1 h2
        subst h1; subst h2
        obtain ⟨e1, e2, e3⟩ := ih ds2 rest2 hsp
        refine ⟨by rw [e1]; rfl, ?_, e3⟩
        intro x hx
        rcases List.mem_cons.mp hx with rfl | hx
        · exact hp
        · exact e2 x hx
    · rw [if_neg hp] at h
      injection h with h1 h2
      subst h1; subst h2
      refine ⟨rfl, by simp, ?_⟩
      intro x xs hx
      injection hx with hx1 _
      subst hx1
      exact Bool.eq_false_iff.mpr hp

/-- Conversely a split with those properties is what the span returns. -/
theorem spanP_eq (p : Char → Bool) :
    ∀ ds rest : List Char, (∀ c ∈ ds, p c = true) →
    (∀ c cs, rest = c :: cs → p c = false) →
    spanP p (ds ++ rest) = (ds, rest) := by
  intro ds
  induction ds with
  | nil =>
    intro rest _ hrest
    cases rest with
    | nil => rfl
    | cons c cs =>
      rw [List.nil_append]
      unfold spanP
      rw [if_neg (by simp [hrest c cs rfl])]
  | cons d ds2 ih =>
    intro rest hds hrest
    rw [List.cons_append]
    unfold spanP
    rw [if_pos (hds d (by simp))]
    rw [ih rest (fun c hc => hds c (by simp [hc])) hrest]

theorem parseYear4_sound (l : List Char) (y : Nat) (r : List Char)
    (h : parseYear4 l = some (y, r)) :
    ∃ ds, l = ds ++ r ∧ (∀ c ∈ ds, c.isDigit = true) ∧ ds.length = 4 ∧
      digitsVal ds = y := by
  unfold parseYear4 at h
  cases hsp : spanP Char.isDigit l with
  | mk ds rest =>
    rw [hsp] at h
    by_cases hlen : ds.length = 4
    · rw [if_pos hlen] at h
      injection h with h2
      injection h2 with ha hb
      subst ha; subst hb
      obtain ⟨e1, e2, _⟩ := spanP_sound Char.isDigit l ds rest hsp
      exact ⟨ds, e1, e2, hlen, rfl⟩
    · rw [if_neg hlen] at h
      exact absurd h (by simp)

theorem parseField12_sound (l : List Char) (n : Nat) (r : List Char)
    (h : parseField12 l = some (n, r)) :
    ∃ ds, l = ds ++ r ∧ fldRep n ds := by
  unfold parseField12 at h
  cases hsp : spanP Char.isDigit l with
  | mk ds rest =>
    rw [hsp] at h
    by_cases hlen : ds.length = 1 ∨ ds.length = 2
    · rw [if_pos hlen] at h
      injection h with h2
      injection h2 with ha hb
      subst ha; subst hb
      obtain ⟨e1, e2, _⟩ := spanP_sound Char.isDigit l ds rest hsp
      refine ⟨ds, e1, ?_⟩
      unfold fldRep
      exact ⟨e2, hlen, rfl⟩
    · rw [if_neg hlen] at h
      exact absurd h (by simp)

theorem parseChar_sound (c : Char) (l r : List Char) (h : parseChar c l = some r) :
    l = c :: r := by
  cases l with
  | nil => exact absurd h (by simp [parseChar])
  | cons x xs =>
    simp only [parseChar] at h
    by_cases hx : x = c
    · rw [if_pos hx] at h
      injection h with h2
      rw [hx, h2]
    · rw [if_neg hx] at h
      exact absurd h (by simp)

theorem parseWhite1_sound (l r : List Char) (h : parseWhite1 l = some r) :
    ∃ ws, l = ws ++ r ∧ ws ≠ [] ∧ ∀ c ∈ ws, c.isWhitespace = true := by
  unfold parseWhite1 at h
  cases hsp : spanP Char.isWhitespace l with
  | mk ws rest =>
    rw [hsp] at h
    cases ws with
    | nil => simp at h
    | cons w ws2 =>
      injection h with h2
      subst h2
      obtain ⟨e1, e2, _⟩ := spanP_sound Char.isWhitespace l (w :: ws2) rest hsp
      exact ⟨w :: ws2, e1, by simp, e2⟩

theorem parseYear4_complete (ds r : List Char)
    (hds : ∀ c ∈ ds, c.isDigit = true) (hlen : ds.length = 4)
    (hr : ∀ c cs, r = c :: cs → c.isDigit = false) :
    parseYear4 (ds ++ r) = some (digitsVal ds, r) := by
  unfold parseYear4
  rw [spanP_eq Char.isDigit ds r hds hr]
  rw [if_pos hlen]

theorem parseField12_complete (n : Nat) (ds r : List Char) (hf : fldRep n ds)
    (hr : ∀ c cs, r = c :: cs → c.isDigit = false) :
    parseField12 (ds ++ r) = some (n, r) := by
  obtain ⟨hds, hlen, hval⟩ := hf
  unfold parseField12
  rw [spanP_eq Char.isDigit ds r hds hr]
  rw [if_pos hlen, hval]

theorem parseChar_complete (c : Char) (r : List Char) :
    parseChar c (c :: r) = some r := by
  simp [parseChar]

theorem parseWhite1_complete (ws r : List Char) (hne : ws ≠ [])
    (hws : ∀ c ∈ ws, c.isWhitespace = true)
    (hr : ∀ c cs, r = c :: cs → c.isWhitespace = false) :
    parseWhite1 (ws ++ r) = some r := by
  unfold parseWhite1
  rw [spanP_eq Char.isWhitespace ws r hws hr]
  cases ws with
  | nil => exact absurd rfl hne
  | cons w ws2 => rfl

/-- Soundness half: a successful parse certifies calendar validity and a
strptime decomposition of the input. -/
theorem parseTimestamp_forward (s : String) (t : Timestamp)
    (h : parseTimestamp s = some t) :
    validTs t = true ∧ flexFormat s.data t := by
  unfold parseTimestamp at h
  cases h1 : parseYear4 s.data with
  | none => rw [h1] at h; simp only [Option.bind_eq_bind, Option.none_bind] at h; exact Option.noConfusion h
  | some p1 =>
  obtain ⟨y, r1⟩ := p1
  rw [h1] at h
  simp only [Option.bind_eq_bind, Option.some_bind] at h
  cases h2 : parseChar '/' r1 with
  | none => rw [h2] at h; simp only [Option.bind_eq_bind, Option.none_bind] at h; exact Option.noConfusion h
  | some r2 =>
  rw [h2] at h
  simp only [Option.some_bind] at h
  cases h3 : parseField12 r2 with
  | none => rw [h3] at h; simp only [Option.bind_eq_bind, Option.none_bind] at h; exact Option.noConfusion h
  | some p3 =>
  obtain ⟨mo, r3⟩ := p3
  rw [h3] at h
  simp only [Option.some_bind] at h
  cases h4 : parseChar '/' r3 with
  | none => rw [h4] at h; simp only [Option.bind_eq_bind, Option.none_bind] at h; exact Option.noConfusion h
  | some r4 =>
  rw [h4] at h
  simp only [Option.some_bind] at h
  cases h5 : parseField12 r4 with
  | none => rw [h5] at h; simp only [Option.bind_eq_bind, Option.none_bind] at h; exact Option.noConfusion h
  | some p5 =>
  obtain ⟨dy, r5⟩ := p5
  rw [h5] at h
  simp only [Option.some_bind] at h
  cases h6 : parseWhite1 r5 with
  | none => rw [h6] at h; simp only [Option.bind_eq_bind, Option.none_bind] at h; exact Option.noConfusion h
  | some r6 =>
  rw [h6] at h
  simp only [Option.some_bind] at h
  cases h7 : parseField12 r6 with
  | none => rw [h7] at h; simp only [Option.bind_eq_bind, Option.none_bind] at h; exact Option.noConfusion h
  | some p7 =>
  obtain ⟨hh, r7⟩ := p7
  rw [h7] at h
  simp only [Option.some_bind] at h
  cases h8 : parseChar ':' r7 with
  | none => rw [h8] at h; simp only [Option.bind_eq_bind, Option.none_bind] at h; exact Option.noConfusion h
  | some r8 =>
  rw [h8] at h
  simp only [Option.some_bind] at h
  cases h9 : parseField12 r8 with
  | none => rw [h9] at h; simp only [Option.bind_eq_bind, Option.none_bind] at h; exact Option.noConfusion h
  | some p9 =>
  obtain ⟨mi, r9⟩ := p9
  rw [h9] at h
  simp only [Option.some_bind] at h
  cases h10 : parseChar ':' r9 with
  | none => rw [h10] at h; simp only [Option.bind_eq_bind, Option.none_bind] at h; exact Option.noConfusion h
  | some r10 =>
  rw [h10] at h
  simp only [Option.some_bind] at h
  cases hp11 : parseField12 r10 with
  | none => rw [hp11] at h; simp only [Option.bind_eq_bind, Option.none_bind] at h; exact Option.noConfusion h
  | some p11 =>
  obtain ⟨sec, r11⟩ := p11
  rw [hp11] at h
  simp only [Option.some_bind] at h
  by_cases h11 : r11 = []
  case neg => rw [if_neg h11] at h; exact Option.noConfusion h
  case pos =>
  rw [if_pos h11] at h
  by_cases hv : validTs ⟨y, mo, dy, hh, mi, sec⟩ = true
  case neg => rw [if_neg hv] at h; exact Option.noConfusion h
  case pos =>
  rw [if_pos hv] at h
  injection h with ht
  subst ht
  refine ⟨hv, ?_⟩
  obtain ⟨dsy, ey, hyd, hylen, hyval⟩ := parseYear4_sound s.data y r1 h1
  have ec1 := parseChar_sound '/' r1 r2 h2
  obtain ⟨dsm, em, hmrep⟩ := parseField12_sound r2 mo r3 h3
  have ec2 := parseChar_sound '/' r3 r4 h4
  obtain ⟨dsd, ed, hdrep⟩ := parseField12_sound r4 dy r5 h5
  obtain ⟨ws, ews, hwsne, hwsall⟩ := parseWhite1_sound r5 r6 h6
  obtain ⟨dsh, eh, hhrep⟩ := parseField12_sound r6 hh r7 h7
  have ec3 := parseChar_sound ':' r7 r8 h8
  obtain ⟨dsmi, emi, hmirep⟩ := parseField12_sound r8 mi r9 h9
  have ec4 := parseChar_sound ':' r9 r10 h10
  obtain ⟨dssec, esec, hsrep⟩ := parseField12_sound r10 sec r11 hp11
  refine ⟨dsy, dsm, dsd, ws, dsh, dsmi, dssec, ?_, hyd, hylen, hyval,
    hmrep, hdrep, hwsne, hwsall, hhrep, hmirep, hsrep⟩
  rw [ey, ec1, em, ec2, ed, ews, eh, ec3, emi, ec4, esec, h11]
  simp

/-- Completeness half: a strptime decomposition of the input for a
calendar-valid timestamp parses back to that timestamp. -/
theorem parseTimestamp_backward (s : String) (t : Timestamp)
    (hv : validTs t = true) (hf : flexFormat s.data t) :
    parseTimestamp s = some t := by
  obtain ⟨dsy, dsm, dsd, ws, dsh, dsmi, dssec, heq, hyd, hylen, hyval,
    hmrep, hdrep, hwsne, hwsall, hhrep, hmirep, hsrep⟩ := hf
  unfold fldRep at hhrep
  obtain ⟨hhds, hhlen, hhval⟩ := hhrep
  have hsep : ∀ (ch : Char) (X : List Char), ch.isDigit = false →
      ∀ c cs, (ch :: X) = c :: cs → c.isDigit = false := by
    intro ch X hch c cs hX
    injection hX with hX1 _
    rw [← hX1]
    exact hch
  have hwshead : ∀ (X : List Char) c cs, (ws ++ X) = c :: cs →
      c.isDigit = false := by
    intro X c cs hX
    cases ws with
    | nil => exact absurd rfl hwsne
    | cons w ws2 =>
      injection hX with hX1 _
      rw [← hX1]
      exact whitespace_not_digit w (hwsall w (by simp))
  have hdshhead : ∀ (X : List Char) c cs, (dsh ++ X) = c :: cs →
      c.isWhitespace = false := by
    intro X c cs hX
    cases dsh with
    | nil => rcases hhlen with hl | hl <;> simp at hl
    | cons d ds2 =>
      injection hX with hX1 _
      rw [← hX1]
      exact digit_not_whitespace d (hhds d (by simp))
  unfold parseTimestamp
  rw [heq]
  rw [parseYear4_complete dsy _ hyd hylen (hsep '/' _ (by decide))]
  rw [hyval]
  simp only [Option.bind_eq_bind, Option.some_bind]
  rw [parseChar_complete '/' _]
  simp only [Option.some_bind]
  rw [parseField12_complete t.month dsm _ hmrep (hsep '/' _ (by decide))]
  simp only [Option.some_bind]
  rw [parseChar_complete '/' _]
  simp only [Option.some_bind]
  rw [parseField12_complete t.day dsd _ hdrep (hwshead _)]
  simp only [Option.some_bind]
  rw [parseWhite1_complete ws _ hwsne hwsall (hdshhead _)]
  simp only [Option.some_bind]
  rw [parseField12_complete t.hour dsh _ ⟨hhds, hhlen, hhval⟩ (hsep ':' _ (by decide))]
  simp only [Option.some_bind]
  rw [parseChar_complete ':' _]
  simp only [Option.some_bind]
  rw [parseField12_complete t.minute dsmi _ hmirep (hsep ':' _ (by decide))]
  simp only [Option.some_bind]
  rw [parseChar_complete ':' _]
  simp only [Option.some_bind]
  rw [show dssec = dssec ++ [] from (List.append_nil dssec).symm]
  rw [parseField12_complete t.second dssec [] hsrep
    (fun c cs hX => absurd hX (by simp))]
  simp only [Option.some_bind]
  rw [if_pos trivial]
  have hv2 : validTs ⟨t.year, t.month, t.day, t.hour, t.minute, t.second⟩ = true := hv
  rw [if_pos hv2]

theorem digitsVal_pad2 (n : Nat) (h : n ≤ 99) : digitsVal (pad2 n) = n := by
  unfold digitsVal pad2
  simp only [List.foldl_cons, List.foldl_nil]
  rw [d2n_digitChar (n / 10 % 10) (by omega), d2n_digitChar (n % 10) (by omega)]
  omega

theorem digitsVal_pad4 (n : Nat) (h : n ≤ 9999) : digitsVal (pad4 n) = n := by
  unfold digitsVal pad4
  simp only [List.foldl_cons, List.foldl_nil]
  rw [d2n_digitChar (n / 1000 % 10) (by omega), d2n_digitChar (n / 100 % 10) (by omega),
    d2n_digitChar (n / 10 % 10) (by omega), d2n_digitChar (n % 10) (by omega)]
  omega

/-- The zero-padded literal rendering is one of the accepted strptime
shapes. -/
theorem specTsRender_flexFormat (t : Timestamp) (hv : validTs t = true) :
    flexFormat (specTsRender t) t := by
  unfold validTs at hv
  simp only [Bool.and_eq_true, and_assoc, decide_eq_true_eq] at hv
  obtain ⟨hY1, hY2, hM1, hM2, hD1, hD2, hH, hMi, hS⟩ := hv
  have hdm : daysInMonth t.year t.month ≤ 31 := daysInMonth_le t.year t.month
  have hdig2 : ∀ n : Nat, ∀ c ∈ pad2 n, c.isDigit = true := by
    intro n c hc
    simp [pad2] at hc
    rcases hc with rfl | rfl <;> exact isDigit_digitChar _ (by omega)
  have hdig4 : ∀ n : Nat, ∀ c ∈ pad4 n, c.isDigit = true := by
    intro n c hc
    simp [pad4] at hc
    rcases hc with rfl | rfl | rfl | rfl <;> exact isDigit_digitChar _ (by omega)
  refine ⟨pad4 t.year, pad2 t.month, pad2 t.day, [' '], pad2 t.hour,
    pad2 t.minute, pad2 t.second, ?_, hdig4 t.year, rfl,
    digitsVal_pad4 t.year (by omega),
    ⟨hdig2 t.month, Or.inr rfl, digitsVal_pad2 t.month (by omega)⟩,
    ⟨hdig2 t.day, Or.inr rfl, digitsVal_pad2 t.day (by omega)⟩,
    by simp, ?_,
    ⟨hdig2 t.hour, Or.inr rfl, digitsVal_pad2 t.hour (by omega)⟩,
    ⟨hdig2 t.minute, Or.inr rfl, digitsVal_pad2 t.minute (by omega)⟩,
    ⟨hdig2 t.second, Or.inr rfl, digitsVal_pad2 t.second (by omega)⟩⟩
  · rfl
  · intro c hc
    simp at hc
    subst hc
    decide

/-- Claim C8 (amended): the timestamp coercion accepts exactly the
strptime shapes of `%Y/%m/%d %H:%M:%S` — four year digits, one-or-two
digit month/day/hour/minute/second (zero-padding optional), one or more
whitespace characters between date and time — building a calendar-valid
timestamp; the zero-padded literal `YYYY/MM/DD HH:MM:SS` rendering in
particular parses to the corresponding timestamp; every other value is
coerced to a null timestamp; each output record's start/end time is
exactly this coercion of its raw cell; and once both inputs are present
and both column projections succeed, `transform` returns a record set
whatever the timestamp cells contain — no unparseable value makes it
raise or abort the batch. -/
theorem transform_timestamp_coercion :
    (∀ s t, parseTimestamp s = some t ↔ validTs t = true ∧ flexFormat s.data t) ∧
    (∀ t, validTs t = true →
      parseTimestamp (String.mk (specTsRender t)) = some t) ∧
    (∀ p : MeasRow × Option StatRow,
      (buildRow p).start_time = p.1.dateDebut.bind parseTimestamp ∧
      (buildRow p).end_time = p.1.dateFin.bind parseTimestamp) ∧
    (∀ mt lt sep ms ss,
      truthy mt = true → truthy lt = true →
      projectMeas (parseCSVtext sep (mt.getD "")).1
        (parseCSVtext sep (mt.getD "")).2 = .ok ms →
      projectStat (parseCSVtext ';' (lt.getD "")).1
        (parseCSVtext ';' (lt.getD "")).2 = .ok ss →
      (transform mt lt sep).1 = .ok (some ((mergeLeft ms ss).map buildRow))) := by
  refine ⟨?_, ?_, ?_, ?_⟩
  · intro s t
    constructor
    · exact parseTimestamp_forward s t
    · rintro ⟨hv, hf⟩
      exact parseTimestamp_backward s t hv hf
  · intro t hv
    exact parseTimestamp_backward (String.mk (specTsRender t)) t hv
      (specTsRender_flexFormat t hv)
  · intro p
    exact ⟨rfl, rfl⟩
  · intro mt lt sep ms ss htm htl hms hss
    unfold transform
    rw [if_pos (by rw [htm, htl]; rfl)]
    simp only []
    rw [hms, hss]

/-- Claim C8, counterexample: `"2024/5/1 10:00:00"` does not match the
literal zero-padded format `YYYY/MM/DD HH:MM:SS` (it is not the rendering
of its timestamp in that format), yet the strptime-based coercion parses
it rather than coercing it to null, and `transform` emits the parsed
timestamp — so not every value outside the literal format becomes a null
timestamp. -/
theorem transform_nonpadded_cex :
    parseTimestamp "2024/5/1 10:00:00" = some ⟨2024, 5, 1, 10, 0, 0⟩ ∧
    ("2024/5/1 10:00:00" : String).data ≠ specTsRender ⟨2024, 5, 1, 10, 0, 0⟩ ∧
    Except.map (Option.map (List.map MergedRow.start_time))
      (transform (some mtNonPadded) (some ltEx) ';').1 =
      .ok (some [some ⟨2024, 5, 1, 10, 0, 0⟩]) :=
  ⟨rfl, by decide, rfl⟩

/-- Claim C8, witness: the zero-padded rendering of a concrete timestamp
parses to it, and the concrete CSV pair transforms successfully. -/
theorem transform_timestamp_coercion_witness :
    parseTimestamp (String.mk (specTsRender ⟨2024, 5, 1, 10, 0, 0⟩)) =
      some ⟨2024, 5, 1, 10, 0, 0⟩ ∧
    (transform (some mtEx) (some ltEx) ';').1 =
      .ok (some ((mergeLeft msEx ssEx).map buildRow)) := by
  have h := transform_timestamp_coercion
  exact ⟨h.2.1 ⟨2024, 5, 1, 10, 0, 0⟩ (by decide),
    h.2.2.2 (some mtEx) (some ltEx) ';' msEx ssEx rfl rfl rfl rfl⟩

end AQ
